import Mathlib

/-!
Verification development for the retention-based directory pruner
(`deleter.go`).  Times are modelled as integers: seconds of the proleptic
Gregorian calendar counted from 0001-01-01T00:00:00 (the local zone is
taken to be UTC, so wall-clock field arithmetic and instant ordering
coincide).  `goDateSec` reproduces Go's `time.Date` field normalisation
(month 0 is December of the previous year, day 0 the last day of the
previous month, and so on), which the source relies on.
-/

set_option maxRecDepth 8000

namespace Deleter

/-- Leap year in the proleptic Gregorian calendar, as Go computes it. -/
def isLeap (y : Int) : Bool :=
  y % 4 == 0 && (y % 100 != 0 || y % 400 == 0)

/-- Cumulative day counts before each month (0-based month index),
non-leap year. -/
def daysToMonthTable : List Int :=
  [0, 31, 59, 90, 120, 151, 181, 212, 243, 273, 304, 334]

/-- Days from 0001-01-01 to January 1 of year `y` (any integer year). -/
def daysBeforeYear (y : Int) : Int :=
  365 * (y - 1) + (y - 1).fdiv 4 - (y - 1).fdiv 100 + (y - 1).fdiv 400

/-- Days from January 1 of year `y` to the first of 0-based month `m`. -/
def daysToMonth (y : Int) (m : Nat) : Int :=
  (daysToMonthTable.getD m 0) + (if 2 ≤ m ∧ isLeap y then 1 else 0)

/-- Seconds from 0001-01-01T00:00:00 to the instant
`time.Date(year, month, day, hour, minu, sec, 0, loc)` builds: fields may
lie outside their usual ranges and are normalised exactly as Go does
(months by floored division into years; days, hours, minutes and seconds
by plain linear arithmetic on the timeline). -/
def goDateSec (year month day hour minu sec : Int) : Int :=
  let m0 := month - 1
  let y := year + m0.fdiv 12
  let m := (m0.emod 12).toNat
  (daysBeforeYear y + daysToMonth y m + (day - 1)) * 86400
    + hour * 3600 + minu * 60 + sec

/-- Accumulate a run of decimal digits; fails on any non-digit. -/
def parseDigitsAux (acc : Nat) : List Char → Option Nat
  | [] => some acc
  | c :: cs =>
      if c.isDigit then parseDigitsAux (acc * 10 + (c.toNat - 48)) cs
      else none

/-- Model of Go `strconv.ParseInt(s, 10, 0)` on a 64-bit platform:
an optional sign followed by at least one decimal digit, rejecting
values outside the `int64` range.  `none` models a non-nil error. -/
def parseGoInt (s : String) : Option Int :=
  let cs := s.toList
  let signed : Bool × List Char :=
    match cs with
    | '+' :: t => (false, t)
    | '-' :: t => (true, t)
    | t => (false, t)
  match signed.2 with
  | [] => none
  | ds =>
      match parseDigitsAux 0 ds with
      | none => none
      | some n =>
          let v : Int := if signed.1 then -(n : Int) else (n : Int)
          if -(2 ^ 63) ≤ v ∧ v < 2 ^ 63 then some v else none

/-- `getDatePiece` from the source: parse path segment `baseLen + idx`
as an integer, defaulting to 0 when the parse fails.  (The source indexes
the array directly; every call site guards the length, see
`getCompareDate`.) -/
def getDatePiece (pathArray : List String) (baseLen idx : Nat) : Int :=
  match parseGoInt (pathArray.getD (baseLen + idx) "") with
  | some n => n
  | none => 0

/-- `getCompareDate` from the source.  `pathArray` is the path already
split on the separator (Go `strings.Split(path, "/")`, so an absolute
path starts with an empty segment); `baseLen` is the length of the split
tenant-root path; `now` stands for the `time.Now()` the short-path branch
reads.  Each branch mirrors one `time.Date(...).Add(-1 * time.Second)`
of the source. -/
def getCompareDate (pathArray : List String) (baseLen : Nat) (now : Int) : Int :=
  let pathLen := pathArray.length
  if pathLen < baseLen + 2 then now
  else
    let year := getDatePiece pathArray baseLen 1
    if pathLen < baseLen + 3 then
      goDateSec (year + 1) 0 0 0 0 0 - 1
    else
      let month := getDatePiece pathArray baseLen 2
      if pathLen < baseLen + 4 then
        goDateSec year (month + 1) 0 0 0 0 - 1
      else
        let day := getDatePiece pathArray baseLen 3
        if pathLen < baseLen + 5 then
          goDateSec year month (day + 1) 0 0 0 - 1
        else
          let hour := getDatePiece pathArray baseLen 4
          if pathLen < baseLen + 6 then
            goDateSec year month day (hour + 1) 0 0 - 1
          else
            let minu := getDatePiece pathArray baseLen 5
            goDateSec year month day hour (minu + 1) 0 - 1

/-- A filesystem node: a name, whether it is a directory, and (for
directories) its children.  Children are listed in the order
`filepath.Walk` would take them (Go sorts directory names; trees in this
file list children already sorted). -/
inductive FsTree where
  | mk (name : String) (isDir : Bool) (children : List FsTree)
deriving Repr

/-- Name of a node. -/
def FsTree.name : FsTree → String
  | .mk n _ _ => n

/-- Directory flag of a node. -/
def FsTree.isDir : FsTree → Bool
  | .mk _ b _ => b

/-- One callback invocation of the walk, as the pruner's `filepath.Walk`
closure sees it:  an entry whose `lstat` failed (`err != nil`, logged and
skipped), a non-directory (skipped), a directory that was kept, or a
directory that was recursively removed. -/
inductive WalkEvent where
  | errorVisit (path : List String)
  | fileVisit (path : List String)
  | dirKept (path : List String)
  | dirDeleted (path : List String)
deriving Repr, DecidableEq

/-- After `os.RemoveAll` has removed a directory, `filepath.Walk` still
iterates over the child names it read before the callback ran; each
`lstat` now fails, producing one error callback per child and no descent. -/
def errorChildren (p : List String) : List FsTree → List WalkEvent
  | [] => []
  | t :: ts => WalkEvent.errorVisit (p ++ [t.name]) :: errorChildren p ts

mutual

/-- The `filepath.Walk` of `pruneSingleCompanyDir`, specialised to its
callback, on an ideal filesystem (reads succeed, `os.RemoveAll` succeeds).
`deleteTime` is the tenant's cutoff, `wnow` the clock `getCompareDate`
reads in its short-path branch, `bl` the split length of the tenant root,
`parent` the split path of the node's parent.  A non-directory is
skipped; a directory is removed exactly when its compare date is strictly
before the cutoff, in which case the walk does not recurse but still
reports one `lstat` error per already-listed child. -/
def pruneWalk (deleteTime wnow : Int) (bl : Nat) (parent : List String) :
    FsTree → List WalkEvent
  | .mk name dirFlag children =>
    if dirFlag then
      if getCompareDate (parent ++ [name]) bl wnow < deleteTime then
        WalkEvent.dirDeleted (parent ++ [name])
          :: errorChildren (parent ++ [name]) children
      else
        WalkEvent.dirKept (parent ++ [name])
          :: pruneWalkList deleteTime wnow bl (parent ++ [name]) children
    else
      [WalkEvent.fileVisit (parent ++ [name])]

/-- Walk a list of siblings in order, concatenating their events. -/
def pruneWalkList (deleteTime wnow : Int) (bl : Nat) (parent : List String) :
    List FsTree → List WalkEvent
  | [] => []
  | t :: ts =>
      pruneWalk deleteTime wnow bl parent t
        ++ pruneWalkList deleteTime wnow bl parent ts

end

/-- Deleted directory paths among a list of walk events. -/
def deletedPaths (evs : List WalkEvent) : List (List String) :=
  evs.filterMap fun e =>
    match e with
    | WalkEvent.dirDeleted p => some p
    | _ => none

/-- `CompanyConfig` from the source (`companyId`, `companyName`,
`retentionDays`, the last kept as a raw string). -/
structure CompanyConfig where
  Id : String
  Name : String
  Retention : String
deriving Repr, DecidableEq

/-- `Config` from the source: the `default` policy plus the `companies`
list. -/
structure Config where
  DefaultConfig : CompanyConfig
  CompanyConfigs : List CompanyConfig
deriving Repr

/-- A Go map from tenant id to policy, as an association list where the
first matching key wins (later `m[k] = v` writes prepend, so they shadow
earlier ones, matching overwrite semantics). -/
def mapLookup (m : List (String × CompanyConfig)) (k : String) :
    Option CompanyConfig :=
  (m.find? fun p => p.1 == k).map Prod.snd

/-- `convertConfigToMap` from the source: start from
`configMap["default"] = config.DefaultConfig`, then insert every company
under its id (in slice order, later entries overwriting earlier ones). -/
def convertConfigToMap (config : Config) : List (String × CompanyConfig) :=
  config.CompanyConfigs.foldl (fun m e => (e.Id, e) :: m)
    [("default", config.DefaultConfig)]

/-- The lookup `main` performs per tenant directory: use the entry for
the tenant's name if present, otherwise `configMap["default"]` (a Go map
read that yields the zero `CompanyConfig` if even that key were absent). -/
def resolveConfig (m : List (String × CompanyConfig)) (name : String) :
    CompanyConfig :=
  match mapLookup m name with
  | some c => c
  | none => (mapLookup m "default").getD ⟨"", "", ""⟩

/-- Outcome of `pruneSingleCompanyDir` for one tenant: either the early
return after `strconv.ParseInt` failed on the retention string (carrying
the raw string, name and id it logs), or the walk's events. -/
inductive PruneResult where
  | skippedInvalidRetention (raw name id : String)
  | walked (events : List WalkEvent)
deriving Repr, DecidableEq

/-- Deletions a tenant outcome performed. -/
def PruneResult.deletions : PruneResult → List (List String)
  | .skippedInvalidRetention _ _ _ => []
  | .walked evs => deletedPaths evs

/-- `pruneSingleCompanyDir` from the source: parse the retention string
(skipping the tenant on failure), compute
`deleteTime = currTime.AddDate(0, 0, -retentionDays)` — on a UTC clock
exactly `retentionDays * 86400` seconds before `currTime` — take
`baseLen` as the segment count of the tenant root path, and walk.
`parent` is the split path of the base directory, `tree` the tenant's
directory node (so the walked root is `parent ++ [tree.name]`). -/
def pruneSingleCompanyDir (parent : List String) (tree : FsTree)
    (config : CompanyConfig) (currTime wnow : Int) : PruneResult :=
  match parseGoInt config.Retention with
  | none => .skippedInvalidRetention config.Retention config.Name config.Id
  | some r =>
      .walked (pruneWalk (currTime - r * 86400) wnow
        (parent ++ [tree.name]).length parent tree)

/-- The per-tenant fan-out of `main`: for every immediate child of the
base directory that is a directory, resolve its policy and prune.  The
goroutines touch disjoint subtrees and join before exit, so the sweep is
modelled as the list of per-tenant outcomes in directory order. -/
def runSweep (baseSegs : List String) (configMap : List (String × CompanyConfig))
    (currTime wnow : Int) (entries : List FsTree) :
    List (String × PruneResult) :=
  (entries.filter fun t => t.isDir).map fun t =>
    (t.name, pruneSingleCompanyDir baseSegs t
      (resolveConfig configMap t.name) currTime wnow)

/-! ## Helper lemmas about the walker -/

/-- Events of `errorChildren` are exactly one `errorVisit` per child. -/
theorem mem_errorChildren {p : List String} {e : WalkEvent} :
    ∀ {ts : List FsTree}, e ∈ errorChildren p ts ↔
      ∃ t ∈ ts, e = WalkEvent.errorVisit (p ++ [t.name]) := by
  intro ts
  induction ts with
  | nil => simp [errorChildren]
  | cons t ts ih => simp [errorChildren, ih]

/-- Events of a sibling list are events of one of the siblings. -/
theorem mem_pruneWalkList {deleteTime wnow : Int} {bl : Nat}
    {parent : List String} {e : WalkEvent} :
    ∀ {ts : List FsTree}, e ∈ pruneWalkList deleteTime wnow bl parent ts ↔
      ∃ t ∈ ts, e ∈ pruneWalk deleteTime wnow bl parent t := by
  intro ts
  induction ts with
  | nil => simp [pruneWalkList]
  | cons t ts ih => simp [pruneWalkList, ih]

/-- Classification of walk events: a `dirDeleted` event is only emitted
for a path whose compare date is strictly before the cutoff, and a
`dirKept` event only for a path whose compare date is not. -/
theorem pruneWalk_classify (deleteTime wnow : Int) (bl : Nat) :
    ∀ (n : Nat) (t : FsTree), sizeOf t ≤ n →
      ∀ (parent p : List String),
        (WalkEvent.dirDeleted p ∈ pruneWalk deleteTime wnow bl parent t →
          getCompareDate p bl wnow < deleteTime) ∧
        (WalkEvent.dirKept p ∈ pruneWalk deleteTime wnow bl parent t →
          ¬ getCompareDate p bl wnow < deleteTime) := by
  intro n
  induction n with
  | zero =>
      intro t hszero
      cases t with
      | mk name dirFlag children =>
        have h1 : 0 < sizeOf (FsTree.mk name dirFlag children) := by
          simp only [FsTree.mk.sizeOf_spec]
          omega
        omega
  | succ n ih =>
      intro t hsize parent p
      cases t with
      | mk name dirFlag children =>
        rw [pruneWalk]
        by_cases hdir : dirFlag = true
        · rw [if_pos hdir]
          by_cases hlt :
              getCompareDate (parent ++ [name]) bl wnow < deleteTime
          · rw [if_pos hlt]
            constructor
            · intro he
              rcases List.mem_cons.1 he with he | he
              · injection he with h1
                rw [h1]
                exact hlt
              · rcases mem_errorChildren.1 he with ⟨c, _, hc⟩
                exact WalkEvent.noConfusion hc
            · intro he
              rcases List.mem_cons.1 he with he | he
              · exact WalkEvent.noConfusion he
              · rcases mem_errorChildren.1 he with ⟨c, _, hc⟩
                exact WalkEvent.noConfusion hc
          · rw [if_neg hlt]
            constructor
            · intro he
              rcases List.mem_cons.1 he with he | he
              · exact WalkEvent.noConfusion he
              · rcases mem_pruneWalkList.1 he with ⟨c, hcmem, hc⟩
                have hsz : sizeOf c < sizeOf (FsTree.mk name dirFlag children) := by
                  have := List.sizeOf_lt_of_mem hcmem
                  simp only [FsTree.mk.sizeOf_spec]
                  omega
                exact (ih c (by omega) (parent ++ [name]) p).1 hc
            · intro he
              rcases List.mem_cons.1 he with he | he
              · injection he with h1
                rw [h1]
                exact hlt
              · rcases mem_pruneWalkList.1 he with ⟨c, hcmem, hc⟩
                have hsz : sizeOf c < sizeOf (FsTree.mk name dirFlag children) := by
                  have := List.sizeOf_lt_of_mem hcmem
                  simp only [FsTree.mk.sizeOf_spec]
                  omega
                exact (ih c (by omega) (parent ++ [name]) p).2 hc
        · rw [if_neg hdir]
          constructor
          · intro he
            rcases List.mem_cons.1 he with he | he
            · exact WalkEvent.noConfusion he
            · cases he
          · intro he
            rcases List.mem_cons.1 he with he | he
            · exact WalkEvent.noConfusion he
            · cases he

/-! ## Claims -/

/-- C1: the claim says a path with exactly one dated segment beyond the
tenant root (a year-only path) gets the last instant of that year,
one second before January 1 of year+1.  The code disagrees: segment
pieces are read starting at index `baseLen + 1`, i.e. one past the first
dated segment, and the guard `pathLen < baseLen + 2` therefore sends
every year-only path (length `baseLen + 1`) into the "too short" branch,
which returns the current instant instead of the year boundary.  This
theorem exhibits the divergence: every such path yields `now`, whatever
the year segment says. -/
theorem c1_year_only_path_returns_current_instant
    (pathArray : List String) (baseLen : Nat) (now : Int)
    (h : pathArray.length = baseLen + 1) :
    getCompareDate pathArray baseLen now = now := by
  rw [getCompareDate]
  simp only [h]
  rw [if_pos (by omega)]

/-- Witness for `c1_year_only_path_returns_current_instant`: the year
directory `/data/acme/2023` under tenant root `/data/acme` (split length
3) compares as the clock instant 777, not as 2023-12-31T23:59:59. -/
theorem c1_year_only_path_returns_current_instant_witness :
    (["", "data", "acme", "2023"] : List String).length = 3 + 1 ∧
    getCompareDate ["", "data", "acme", "2023"] 3 777 = 777 :=
  ⟨by decide,
    c1_year_only_path_returns_current_instant ["", "data", "acme", "2023"]
      3 777 (by decide)⟩

/-- C2 counterexample: in the §8 scenario (now 2024-03-15T00:00:00Z,
tenant acme, retention 30 days), the claim gives `/data/acme/2024/03/10`
the boundary 2024-03-10T23:59:59Z and `/data/acme/2024/03/14` the
boundary 2024-03-14T23:59:59Z, the latter kept.  In the code the year
piece is read one segment too deep, so `03` becomes the year and the day
becomes the month: the two paths actually evaluate to
0003-10-30T23:59:59 and 0004-02-28T23:59:59 — both unequal to the claimed
boundaries and both strictly before the cutoff 2024-02-14T00:00:00Z. -/
theorem c2_scenario_boundaries_counterexample :
    getCompareDate ["", "data", "acme", "2024", "03", "10"] 3
        (goDateSec 2024 3 15 0 0 0) = goDateSec 3 10 30 23 59 59 ∧
    getCompareDate ["", "data", "acme", "2024", "03", "10"] 3
        (goDateSec 2024 3 15 0 0 0) ≠ goDateSec 2024 3 10 23 59 59 ∧
    getCompareDate ["", "data", "acme", "2024", "03", "14"] 3
        (goDateSec 2024 3 15 0 0 0) = goDateSec 4 2 28 23 59 59 ∧
    getCompareDate ["", "data", "acme", "2024", "03", "14"] 3
        (goDateSec 2024 3 15 0 0 0) ≠ goDateSec 2024 3 14 23 59 59 ∧
    getCompareDate ["", "data", "acme", "2024", "03", "14"] 3
        (goDateSec 2024 3 15 0 0 0)
      < goDateSec 2024 3 15 0 0 0 - 30 * 86400 := by
  refine ⟨rfl, by decide, rfl, by decide, by decide⟩

/-- C2 amended: running the tenant sweep of the §8 scenario
(`currTime` 2024-03-15T00:00:00Z, retention string "30", cutoff
2024-02-14T00:00:00Z) over the tree `/data/acme/2024/03/{10,14}`,
the tenant root and year directory are kept (their compare date is the
current instant), the month directory `/data/acme/2024/03` is deleted
(its misread boundary 0003-11-29T23:59:59 is before the cutoff), and the
two day directories are never evaluated: they surface only as the error
visits `filepath.Walk` makes on the already-deleted children. -/
theorem c2_scenario_actual_walk :
    pruneSingleCompanyDir ["", "data"]
        (FsTree.mk "acme" true
          [FsTree.mk "2024" true
            [FsTree.mk "03" true
              [FsTree.mk "10" true [], FsTree.mk "14" true []]]])
        ⟨"acme", "Acme Corp", "30"⟩
        (goDateSec 2024 3 15 0 0 0) (goDateSec 2024 3 15 0 0 0) =
      PruneResult.walked
        [WalkEvent.dirKept ["", "data", "acme"],
         WalkEvent.dirKept ["", "data", "acme", "2024"],
         WalkEvent.dirDeleted ["", "data", "acme", "2024", "03"],
         WalkEvent.errorVisit ["", "data", "acme", "2024", "03", "10"],
         WalkEvent.errorVisit ["", "data", "acme", "2024", "03", "14"]] := by
  decide

/-- C3: the claim says a year+month path gets the last instant of that
month, one second before the 1st of the next month.  The code instead
reads the month segment as the *year* (the off-by-one of C1) and then
evaluates `time.Date(year+1, 0, 0, ...) - 1s`, whose month-0/day-0
normalisation lands on November 30 of the misread year:
`/data/acme/2024/03` evaluates to 0003-11-29T23:59:59, not to
2024-03-31T23:59:59. -/
theorem c3_year_month_path_boundary (now : Int) :
    getCompareDate ["", "data", "acme", "2024", "03"] 3 now
        = goDateSec 3 11 29 23 59 59 ∧
    getCompareDate ["", "data", "acme", "2024", "03"] 3 now
        ≠ goDateSec 2024 3 31 23 59 59 := by
  have h1 : getCompareDate ["", "data", "acme", "2024", "03"] 3 now
      = goDateSec 3 11 29 23 59 59 := rfl
  exact ⟨h1, by rw [h1]; decide⟩

/-- C4: the claim says appending one further timestamp segment never
yields a boundary later than the coarser path's boundary.  On the
perfectly ordinary calendar path `/data/acme/2024/12/31` the code
violates this: the coarser path `/data/acme/2024/12` evaluates to
0012-11-29T23:59:59 (the `12` segment is misread as a year), while the
finer path evaluates to 0014-07-30T23:59:59 (`time.Date(12, 32, 0, ...)`
normalises month 32 into year 14) — strictly later. -/
theorem c4_adding_segment_moves_boundary_later (wnow : Int) :
    getCompareDate ["", "data", "acme", "2024", "12"] 3 wnow
      < getCompareDate ["", "data", "acme", "2024", "12", "31"] 3 wnow := by
  have h1 : getCompareDate ["", "data", "acme", "2024", "12"] 3 wnow
      = goDateSec 12 11 29 23 59 59 := rfl
  have h2 : getCompareDate ["", "data", "acme", "2024", "12", "31"] 3 wnow
      = goDateSec 14 7 30 23 59 59 := rfl
  rw [h1, h2]
  decide

/-- C5: during a tenant walk, a visited directory is recursively deleted
exactly when its compare date (inferred boundary) is strictly before the
tenant cutoff `deleteTime`; a visited directory whose boundary is at or
after the cutoff is kept.  "Visited as a directory" is expressed by the
walk emitting either a `dirDeleted` or a `dirKept` event for the path. -/
theorem c5_deleted_iff_visited_and_boundary_before_cutoff
    (deleteTime wnow : Int) (bl : Nat) (t : FsTree)
    (parent p : List String) :
    WalkEvent.dirDeleted p ∈ pruneWalk deleteTime wnow bl parent t ↔
      ((WalkEvent.dirDeleted p ∈ pruneWalk deleteTime wnow bl parent t ∨
        WalkEvent.dirKept p ∈ pruneWalk deleteTime wnow bl parent t) ∧
       getCompareDate p bl wnow < deleteTime) := by
  have hclass := pruneWalk_classify deleteTime wnow bl (sizeOf t) t le_rfl parent p
  constructor
  · intro h
    exact ⟨Or.inl h, hclass.1 h⟩
  · rintro ⟨h | h, hlt⟩
    · exact h
    · exact absurd hlt (hclass.2 h)

/-- Early-return equation of `pruneSingleCompanyDir`: an unparseable
retention string skips the tenant before any walk happens. -/
theorem pruneSingleCompanyDir_parse_fail {config : CompanyConfig}
    (h : parseGoInt config.Retention = none) (parent : List String)
    (tree : FsTree) (currTime wnow : Int) :
    pruneSingleCompanyDir parent tree config currTime wnow
      = PruneResult.skippedInvalidRetention config.Retention config.Name
          config.Id := by
  unfold pruneSingleCompanyDir
  rw [h]

/-- Walk equation of `pruneSingleCompanyDir`: a retention string that
parses as the integer `r` leads to a walk against the cutoff
`currTime - r * 86400`. -/
theorem pruneSingleCompanyDir_parse_ok {config : CompanyConfig} {r : Int}
    (h : parseGoInt config.Retention = some r) (parent : List String)
    (tree : FsTree) (currTime wnow : Int) :
    pruneSingleCompanyDir parent tree config currTime wnow
      = PruneResult.walked (pruneWalk (currTime - r * 86400) wnow
          (parent ++ [tree.name]).length parent tree) := by
  unfold pruneSingleCompanyDir
  rw [h]

/-- C6 counterexample: the claim says that after a directory is deleted
none of its descendant paths are visited and the traversal never errors
on the vanished children.  In fact `filepath.Walk` reads the child names
*before* invoking the callback that deletes the directory, then `lstat`s
each child, which now fails: the children are revisited as error
callbacks.  Concretely, when `/co/2024/07` is deleted, the walk still
produces an error visit for its child `/co/2024/07/x`. -/
theorem c6_deleted_children_still_error_visited :
    WalkEvent.dirDeleted ["", "co", "2024", "07"] ∈
      pruneWalk (goDateSec 2024 1 1 0 0 0) (goDateSec 2024 1 1 0 0 0) 2
        [""]
        (FsTree.mk "co" true
          [FsTree.mk "2024" true
            [FsTree.mk "07" true
              [FsTree.mk "x" true [], FsTree.mk "notes.txt" false []]]]) ∧
    WalkEvent.errorVisit ["", "co", "2024", "07", "x"] ∈
      pruneWalk (goDateSec 2024 1 1 0 0 0) (goDateSec 2024 1 1 0 0 0) 2
        [""]
        (FsTree.mk "co" true
          [FsTree.mk "2024" true
            [FsTree.mk "07" true
              [FsTree.mk "x" true [], FsTree.mk "notes.txt" false []]]]) := by
  decide

/-- C6 amended: once a directory qualifies for deletion, the walker does
not recurse into it — the entire remaining output for its subtree is the
single `dirDeleted` event plus exactly one error visit per immediate
child (the names `filepath.Walk` listed before the delete, whose `lstat`
now fails and is logged and skipped); no deeper descendant is visited and
no descendant is evaluated against the cutoff. -/
theorem c6_delete_halts_descent_modulo_child_errors
    (deleteTime wnow : Int) (bl : Nat) (parent : List String)
    (name : String) (children : List FsTree)
    (h : getCompareDate (parent ++ [name]) bl wnow < deleteTime) :
    ∀ e ∈ pruneWalk deleteTime wnow bl parent (FsTree.mk name true children),
      e = WalkEvent.dirDeleted (parent ++ [name]) ∨
      ∃ t ∈ children,
        e = WalkEvent.errorVisit ((parent ++ [name]) ++ [t.name]) := by
  intro e he
  rw [pruneWalk, if_pos rfl, if_pos h] at he
  rcases List.mem_cons.1 he with he | he
  · exact Or.inl he
  · rcases mem_errorChildren.1 he with ⟨c, hcmem, hc⟩
    exact Or.inr ⟨c, hcmem, hc⟩

/-- Witness for `c6_delete_halts_descent_modulo_child_errors` at the
deleted directory `/co/2024/07` and its error-visited child `x`. -/
theorem c6_delete_halts_descent_modulo_child_errors_witness :
    WalkEvent.errorVisit ["", "co", "2024", "07", "x"]
        = WalkEvent.dirDeleted ["", "co", "2024", "07"] ∨
      ∃ t ∈ [FsTree.mk "x" true [], FsTree.mk "notes.txt" false []],
        WalkEvent.errorVisit ["", "co", "2024", "07", "x"]
          = WalkEvent.errorVisit (["", "co", "2024", "07"] ++ [t.name]) :=
  c6_delete_halts_descent_modulo_child_errors
    (goDateSec 2024 1 1 0 0 0) (goDateSec 2024 1 1 0 0 0) 2
    ["", "co", "2024"] "07"
    [FsTree.mk "x" true [], FsTree.mk "notes.txt" false []]
    (by decide) (WalkEvent.errorVisit ["", "co", "2024", "07", "x"])
    (by decide)

/-- C7: a tenant whose resolved retention string does not parse is
skipped before its walk starts — its outcome is the early
`skippedInvalidRetention` return, which performs no deletions — and the
sweep of the remaining tenants is exactly the sweep that would have run
without it. -/
theorem c7_invalid_retention_skips_only_that_tenant
    (baseSegs : List String) (configMap : List (String × CompanyConfig))
    (currTime wnow : Int) (t : FsTree) (ts : List FsTree)
    (hdir : t.isDir = true)
    (hbad : parseGoInt (resolveConfig configMap t.name).Retention = none) :
    runSweep baseSegs configMap currTime wnow (t :: ts) =
      (t.name, PruneResult.skippedInvalidRetention
          (resolveConfig configMap t.name).Retention
          (resolveConfig configMap t.name).Name
          (resolveConfig configMap t.name).Id)
        :: runSweep baseSegs configMap currTime wnow ts ∧
    (PruneResult.skippedInvalidRetention
        (resolveConfig configMap t.name).Retention
        (resolveConfig configMap t.name).Name
        (resolveConfig configMap t.name).Id).deletions = [] := by
  refine ⟨?_, rfl⟩
  simp only [runSweep, List.filter_cons, hdir, if_true, List.map_cons]
  rw [pruneSingleCompanyDir_parse_fail hbad]

/-- Witness for `c7_invalid_retention_skips_only_that_tenant`: the tenant
`acme` has the malformed retention string "abc" and is skipped, while the
sweep continues with tenant `beta`. -/
theorem c7_invalid_retention_skips_only_that_tenant_witness :
    runSweep ["", "data"]
        [("acme", ⟨"acme", "Acme", "abc"⟩), ("default", ⟨"", "", "7"⟩)] 0 0
        [FsTree.mk "acme" true [], FsTree.mk "beta" true []] =
      ("acme", PruneResult.skippedInvalidRetention "abc" "Acme" "acme")
        :: runSweep ["", "data"]
          [("acme", ⟨"acme", "Acme", "abc"⟩), ("default", ⟨"", "", "7"⟩)] 0 0
          [FsTree.mk "beta" true []] ∧
    (PruneResult.skippedInvalidRetention "abc" "Acme" "acme").deletions
      = [] :=
  c7_invalid_retention_skips_only_that_tenant ["", "data"]
    [("acme", ⟨"acme", "Acme", "abc"⟩), ("default", ⟨"", "", "7"⟩)] 0 0
    (FsTree.mk "acme" true []) [FsTree.mk "beta" true []]
    (by decide) (by decide)

/-- C8 counterexample: the claim says a retention string denoting a
negative number, such as "-5", is a policy-level error that causes the
tenant to be skipped.  In fact `strconv.ParseInt` accepts "-5", the
tenant is swept with a cutoff five days in the *future*, and (since even
the tenant root's compare date, the current instant, precedes that
cutoff) the whole tenant directory is deleted. -/
theorem c8_negative_retention_swept_not_skipped :
    parseGoInt "-5" = some (-5) ∧
    pruneSingleCompanyDir ["", "data"] (FsTree.mk "acme" true [])
        ⟨"acme", "Acme", "-5"⟩ 0 0
      = PruneResult.walked [WalkEvent.dirDeleted ["", "data", "acme"]] := by
  decide

/-- C8 amended: the code validates only that the retention string parses
as a base-10 `int64`; any parsed value `r`, negative ones included, is
accepted, and the tenant is walked against the cutoff
`currTime - r * 86400` — which lies strictly after `currTime` whenever
`r` is negative. -/
theorem c8_any_parsed_retention_is_swept
    (config : CompanyConfig) (r : Int)
    (h : parseGoInt config.Retention = some r)
    (parent : List String) (tree : FsTree) (currTime wnow : Int) :
    pruneSingleCompanyDir parent tree config currTime wnow
      = PruneResult.walked (pruneWalk (currTime - r * 86400) wnow
          (parent ++ [tree.name]).length parent tree) ∧
    (r < 0 → currTime < currTime - r * 86400) :=
  ⟨pruneSingleCompanyDir_parse_ok h parent tree currTime wnow,
    fun hr => by omega⟩

/-- Witness for `c8_any_parsed_retention_is_swept` at the retention
string "-5". -/
theorem c8_any_parsed_retention_is_swept_witness :
    pruneSingleCompanyDir ["", "d"] (FsTree.mk "a" true [])
        ⟨"acme", "Acme", "-5"⟩ 100 100
      = PruneResult.walked (pruneWalk (100 - (-5) * 86400) 100
          ((["", "d"] ++ [(FsTree.mk "a" true []).name]).length) ["", "d"]
          (FsTree.mk "a" true [])) ∧
    ((-5 : Int) < 0 → (100 : Int) < 100 - (-5) * 86400) :=
  c8_any_parsed_retention_is_swept ⟨"acme", "Acme", "-5"⟩ (-5) (by decide)
    ["", "d"] (FsTree.mk "a" true []) 100 100

/-- C9 counterexample: the claim says malformed structure biases the
decision toward *retaining* the directory.  A directory segment that
fails to parse is coerced to 0, and at the year position that produces
the ancient boundary 0000-11-29T23:59:59, so the malformed directory
`/data/acme/2024/junk` is *deleted* under the perfectly ordinary cutoff
2024-02-14T00:00:00Z — the bias is toward deletion. -/
theorem c9_malformed_segment_is_deleted :
    getCompareDate ["", "data", "acme", "2024", "junk"] 3
        (goDateSec 2024 3 15 0 0 0) = goDateSec 0 11 29 23 59 59 ∧
    WalkEvent.dirDeleted ["", "data", "acme", "2024", "junk"] ∈
      pruneWalk (goDateSec 2024 3 15 0 0 0 - 30 * 86400)
        (goDateSec 2024 3 15 0 0 0) 3 ["", "data"]
        (FsTree.mk "acme" true
          [FsTree.mk "2024" true [FsTree.mk "junk" true []]]) := by
  decide

/-- C9 amended: inference never errors and the degradations go in two
different directions.  A path too short to carry a date returns the
current instant (never expired, so retained); but a numeric segment that
fails to parse is treated as 0, and a zero year produces the fixed
ancient boundary `time.Date(1, 0, 0, ...) - 1s` = 0000-11-29T23:59:59,
which biases malformed dated directories toward deletion, not
retention. -/
theorem c9_degraded_inference_directions
    (pathArray : List String) (baseLen : Nat) (now : Int) :
    (pathArray.length < baseLen + 2 →
      getCompareDate pathArray baseLen now = now) ∧
    (pathArray.length = baseLen + 2 →
      parseGoInt (pathArray.getD (baseLen + 1) "") = none →
      getCompareDate pathArray baseLen now = goDateSec 1 0 0 0 0 0 - 1) ∧
    goDateSec 1 0 0 0 0 0 - 1 = goDateSec 0 11 29 23 59 59 := by
  refine ⟨?_, ?_, by decide⟩
  · intro h
    rw [getCompareDate]
    rw [if_pos h]
  · intro hlen hparse
    rw [getCompareDate]
    rw [if_neg (by omega), if_pos (by omega)]
    unfold getDatePiece
    rw [hparse]
    rfl

/-- Witness for `c9_degraded_inference_directions`: the tenant root
`/data/acme` itself degrades to the clock instant 42, while the
unparseable `/data/acme/2024/junk` degrades to the year-0 boundary. -/
theorem c9_degraded_inference_directions_witness :
    getCompareDate ["", "data", "acme"] 3 42 = 42 ∧
    getCompareDate ["", "data", "acme", "2024", "junk"] 3 42
      = goDateSec 1 0 0 0 0 0 - 1 :=
  ⟨(c9_degraded_inference_directions ["", "data", "acme"] 3 42).1
      (by decide),
   (c9_degraded_inference_directions ["", "data", "acme", "2024", "junk"]
      3 42).2.1 (by decide) (by decide)⟩

/-- Unfolding of the Go-map construction: the `default` policy first,
then every company entry prepended in slice order (so that, as with map
writes, a later entry with the same id shadows an earlier one). -/
theorem convertConfigToMap_eq (config : Config) :
    convertConfigToMap config =
      (config.CompanyConfigs.map fun e => (e.Id, e)).reverse
        ++ [("default", config.DefaultConfig)] := by
  have h : ∀ (cs : List CompanyConfig) (init : List (String × CompanyConfig)),
      cs.foldl (fun m e => (e.Id, e) :: m) init
        = (cs.map fun e => (e.Id, e)).reverse ++ init := by
    intro cs
    induction cs with
    | nil => intro init; simp
    | cons c cs ih =>
        intro init
        simp [List.foldl_cons, ih]
  exact h _ _

/-- Looking up a key that no company entry carries yields the `default`
policy exactly when the key is "default", and nothing otherwise. -/
theorem mapLookup_convert_unlisted (config : Config) (k : String)
    (hk : ∀ c ∈ config.CompanyConfigs, c.Id ≠ k) :
    mapLookup (convertConfigToMap config) k =
      if ("default" == k) then some config.DefaultConfig else none := by
  rw [convertConfigToMap_eq]
  unfold mapLookup
  rw [List.find?_append]
  have h1 : ((config.CompanyConfigs.map fun e => (e.Id, e)).reverse.find?
      fun p => p.1 == k) = none := by
    rw [List.find?_eq_none]
    intro x hx
    rw [List.mem_reverse, List.mem_map] at hx
    obtain ⟨c, hc, rfl⟩ := hx
    simpa using hk c hc
  rw [h1]
  by_cases hd : ("default" == k)
  · simp [List.find?, hd]
  · simp [List.find?, hd]

/-- C10: when the configuration has no usable default policy (absent
`default` entry, i.e. the zero `CompanyConfig`, or one whose retention
string is empty), a tenant directory that matches no company entry
resolves to that default, whose empty retention string fails to parse:
the tenant is skipped with the early `InvalidRetentionValue` return and
nothing in its subtree is deleted. -/
theorem c10_unlisted_tenant_with_unusable_default_is_skipped
    (config : Config) (parent : List String) (tree : FsTree)
    (currTime wnow : Int)
    (hdef : config.DefaultConfig.Retention = "")
    (hnot : ∀ c ∈ config.CompanyConfigs,
      c.Id ≠ tree.name ∧ c.Id ≠ "default") :
    resolveConfig (convertConfigToMap config) tree.name
        = config.DefaultConfig ∧
    pruneSingleCompanyDir parent tree
        (resolveConfig (convertConfigToMap config) tree.name) currTime wnow
      = PruneResult.skippedInvalidRetention "" config.DefaultConfig.Name
          config.DefaultConfig.Id ∧
    (pruneSingleCompanyDir parent tree
        (resolveConfig (convertConfigToMap config) tree.name)
        currTime wnow).deletions = [] := by
  have hres : resolveConfig (convertConfigToMap config) tree.name
      = config.DefaultConfig := by
    have hml := mapLookup_convert_unlisted config tree.name
      (fun c hc => (hnot c hc).1)
    unfold resolveConfig
    by_cases hd : ("default" == tree.name)
    · rw [hml, if_pos hd]
    · rw [hml, if_neg hd]
      have hml2 := mapLookup_convert_unlisted config "default"
        (fun c hc => (hnot c hc).2)
      rw [hml2]
      simp
  have hparse : parseGoInt
      (resolveConfig (convertConfigToMap config) tree.name).Retention
      = none := by
    rw [hres, hdef]
    decide
  have hskip := pruneSingleCompanyDir_parse_fail hparse parent tree
    currTime wnow
  refine ⟨hres, ?_, ?_⟩
  · rw [hskip, hres, hdef]
  · rw [hskip]
    rfl

/-- Witness for `c10_unlisted_tenant_with_unusable_default_is_skipped`:
config with a zero default policy and one company `acme`; the unlisted
tenant directory `unknownco` is skipped and deletes nothing. -/
theorem c10_unlisted_tenant_with_unusable_default_is_skipped_witness :
    resolveConfig
        (convertConfigToMap ⟨⟨"", "", ""⟩, [⟨"acme", "Acme", "30"⟩]⟩)
        (FsTree.mk "unknownco" true [FsTree.mk "2020" true []]).name
      = (⟨"", "", ""⟩ : CompanyConfig) ∧
    pruneSingleCompanyDir ["", "data"]
        (FsTree.mk "unknownco" true [FsTree.mk "2020" true []])
        (resolveConfig
          (convertConfigToMap ⟨⟨"", "", ""⟩, [⟨"acme", "Acme", "30"⟩]⟩)
          (FsTree.mk "unknownco" true [FsTree.mk "2020" true []]).name) 0 0
      = PruneResult.skippedInvalidRetention "" "" "" ∧
    (pruneSingleCompanyDir ["", "data"]
        (FsTree.mk "unknownco" true [FsTree.mk "2020" true []])
        (resolveConfig
          (convertConfigToMap ⟨⟨"", "", ""⟩, [⟨"acme", "Acme", "30"⟩]⟩)
          (FsTree.mk "unknownco" true [FsTree.mk "2020" true []]).name)
        0 0).deletions = [] :=
  c10_unlisted_tenant_with_unusable_default_is_skipped
    ⟨⟨"", "", ""⟩, [⟨"acme", "Acme", "30"⟩]⟩ ["", "data"]
    (FsTree.mk "unknownco" true [FsTree.mk "2020" true []]) 0 0
    (by decide) (by decide)

end Deleter

